import Mathlib

/-!
Verification development for the `lib_manager` runtime module manager
(`LibManager.h` / `LibManager.cpp`).

The registry `std::map<std::string, libStruct> libMap` is embedded as a
list of key/value pairs kept sorted by key (the iteration and lookup
behaviour of `std::map` with `std::less<std::string>`).  Observable side
effects — destructor callbacks (`destroy(libInterface)`) and peer
notifications (`newLibLoaded(name)`) — are returned as explicit event
lists.  The C++ `throw std::runtime_error(...)` paths are embedded as
`Except.error`.
-/

namespace LibMgr

/-- The part of `LibInterface` the registry observes: `getLibName()`.
(`createModuleInfo()` only mutates the module's own metadata and is not
registry state.) -/
structure LibInterface where
  name : String
  deriving DecidableEq, Repr

/-- `libStruct` from `LibManager.h`: the per-module record.  The raw
`destroyLib*` pointer is modelled by whether it is non-null
(`hasDestroy`); the `LibInterface*` by the interface value. -/
structure libStruct where
  libInterface : LibInterface
  hasDestroy : Bool
  useCount : Int
  path : String
  deriving DecidableEq, Repr

/-- `LibManager::ErrorNumber` from `LibManager.h` (omitting the
`LIBMGR_NUM_ERRORS` sentinel, which the enum comment forbids using). -/
inductive ErrorNumber where
  | LIBMGR_NO_ERROR
  | LIBMGR_ERR_NO_LIBRARY
  | LIBMGR_ERR_LIBNAME_EXISTS
  | LIBMGR_ERR_NOT_ABLE_TO_LOAD
  | LIBMGR_ERR_LIB_IN_USE
  deriving DecidableEq, Repr

/-- Observable side effects of registry operations:
`destroyed n` models `destroy(libInterface)` being invoked on the record
(or fresh instance) named `n`; `notified r m` models
`r.libInterface->newLibLoaded(m)`. -/
inductive Event where
  | destroyed (name : String)
  | notified (recipient : String) (newLib : String)
  deriving DecidableEq, Repr

/-- The registry map `libMap`, as a key-sorted association list. -/
abbrev State := List (String × libStruct)

/-- `libMap.find(n)` (returning the mapped record rather than an
iterator). -/
def findLib : State → String → Option libStruct
  | [], _ => none
  | (k, v) :: rest, n => if k = n then some v else findLib rest n

/-- `libMap[n] = v` / in-place update through `libMap[n]`: ordered
insert-or-replace, preserving `std::map` key order. -/
def mapInsert : State → String → libStruct → State
  | [], n, v => [(n, v)]
  | (k, w) :: rest, n, v =>
    if n < k then (n, v) :: (k, w) :: rest
    else if n = k then (n, v) :: rest
    else (k, w) :: mapInsert rest n v

/-- `libMap.erase(n)`: removes the entry with key `n` (the first such
entry; keys are unique in a well-formed map). -/
def mapErase : State → String → State
  | [], _ => []
  | (k, w) :: rest, n => if k = n then rest else (k, w) :: mapErase rest n

/-- `LibManager::addLibrary` (LibManager.cpp:123-152).  A null `_lib`
yields `LIBMGR_ERR_NO_LIBRARY`; a name clash yields
`LIBMGR_ERR_LIBNAME_EXISTS` with no insertion; otherwise a record with
`useCount = 1` is inserted and every *other* entry of the updated map is
notified of the new name, in map iteration order. -/
def addLibrary (s : State) (lib : Option LibInterface) (hasDestroy : Bool)
    (path : String) : ErrorNumber × State × List Event :=
  match lib with
  | none => (ErrorNumber.LIBMGR_ERR_NO_LIBRARY, s, [])
  | some l =>
    let newLib : libStruct :=
      { libInterface := l, hasDestroy := hasDestroy, useCount := 1, path := path }
    match findLib s l.name with
    | none =>
      let s2 := mapInsert s l.name newLib
      (ErrorNumber.LIBMGR_NO_ERROR, s2,
        (s2.filter (fun p => p.1 != l.name)).map (fun p => Event.notified p.1 l.name))
    | some _ => (ErrorNumber.LIBMGR_ERR_LIBNAME_EXISTS, s, [])

/-- `LibManager::acquireLibrary` (LibManager.cpp:259-268): `NULL` (here
`none`) for an unknown name, otherwise increments `useCount` and returns
the interface. -/
def acquireLibrary (s : State) (libName : String) : Option LibInterface × State :=
  match findLib s libName with
  | none => (none, s)
  | some theLib =>
    (some theLib.libInterface,
      mapInsert s libName { theLib with useCount := theLib.useCount + 1 })

/-- `LibManager::unloadLibrary` (LibManager.cpp:296-316).  The
`throw std::runtime_error` on a negative count is `Except.error`. -/
def unloadLibrary (s : State) (libName : String) :
    Except String (ErrorNumber × State × List Event) :=
  match findLib s libName with
  | none => Except.ok (ErrorNumber.LIBMGR_ERR_NO_LIBRARY, s, [])
  | some theLib =>
    if theLib.useCount < 0 then
      Except.error "Internal error, use count is below zero !"
    else if theLib.useCount = 0 then
      Except.ok (ErrorNumber.LIBMGR_NO_ERROR, mapErase s libName,
        if theLib.hasDestroy then [Event.destroyed libName] else [])
    else
      Except.ok (ErrorNumber.LIBMGR_ERR_LIB_IN_USE, s, [])

/-- `LibManager::releaseLibrary` (LibManager.cpp:275-291): decrements
`useCount`, faults on a negative result, and calls `unloadLibrary` when
the count reaches 0 — discarding `unloadLibrary`'s error code and
returning `LIBMGR_NO_ERROR`. -/
def releaseLibrary (s : State) (libName : String) :
    Except String (ErrorNumber × State × List Event) :=
  match findLib s libName with
  | none => Except.ok (ErrorNumber.LIBMGR_ERR_NO_LIBRARY, s, [])
  | some theLib =>
    let dec : libStruct := { theLib with useCount := theLib.useCount - 1 }
    let s1 := mapInsert s libName dec
    if dec.useCount < 0 then
      Except.error "Internal error, use count is below zero !"
    else if dec.useCount = 0 then
      match unloadLibrary s1 libName with
      | Except.error e => Except.error e
      | Except.ok (_, s2, evs) => Except.ok (ErrorNumber.LIBMGR_NO_ERROR, s2, evs)
    else
      Except.ok (ErrorNumber.LIBMGR_NO_ERROR, s1, [])

/-- `LibManager::getAllLibraries` (LibManager.cpp:361-368): appends every
interface to the output list and increments every record's `useCount`. -/
def getAllLibraries (s : State) : List LibInterface × State :=
  (s.map (fun p => p.2.libInterface),
   s.map (fun p => (p.1, { p.2 with useCount := p.2.useCount + 1 })))

/-- One reduction of the `clearLibraries` loop body, fuelled: find the
first entry with `useCount == 0`, destroy and erase it, restart; stop
when none remains. -/
def clearLibrariesGo : Nat → State → List Event × State
  | 0, s => ([], s)
  | fuel + 1, s =>
    match s.find? (fun p => p.2.useCount == 0) with
    | none => ([], s)
    | some p =>
      let evs := if p.2.hasDestroy then [Event.destroyed p.1] else []
      let r := clearLibrariesGo fuel (mapErase s p.1)
      (evs ++ r.1, r.2)

/-- `LibManager::clearLibraries` (LibManager.cpp:96-114).  Each pass of
the C++ loop erases one entry, so `s.length + 1` fuel always suffices. -/
def clearLibraries (s : State) : List Event × State :=
  clearLibrariesGo (s.length + 1) s

/-- The `while(next_path_pos != string::npos)` split of the environment
variable on the separator character (LibManager.cpp:192-209): every
segment, including empty ones, in order. -/
def splitSep (sep : Char) : List Char → List (List Char)
  | [] => [[]]
  | c :: rest =>
    if c = sep then [] :: splitSep sep rest
    else
      match splitSep sep rest with
      | [] => [[c]]
      | seg :: segs => (c :: seg) :: segs

/-- The per-directory probe of the search loop: test
`directory + "/" + filepath` with `fopen`, returning the first hit. -/
def searchDirs (fileExists : String → Bool) (dirs : List (List Char))
    (filepath : String) : Option String :=
  match dirs with
  | [] => none
  | d :: rest =>
    let cand := String.mk d ++ "/" ++ filepath
    if fileExists cand then some cand else searchDirs fileExists rest filepath

/-- The path-resolution part of `LibManager::loadLibrary`
(LibManager.cpp:179-215), at the non-Windows/non-Apple constants
(`"lib"`, `".so"`, separator `':'`): a name openable literally is used
unchanged; otherwise the decorated candidate is probed against each
directory of the search-list environment variable in order; with no hit
the decorated name itself is passed through. -/
def resolvePath (fileExists : String → Bool) (env : Option String)
    (libPath : String) : String :=
  if fileExists libPath then libPath
  else
    let filepath := "lib" ++ libPath ++ ".so"
    match env with
    | none => filepath
    | some lib_path_s =>
      match searchDirs fileExists (splitSep ':' lib_path_s.data) filepath with
      | some found => found
      | none => filepath

/-- The external world `loadLibrary` interacts with: the filesystem
(`fopen` tests), `dlopen` success, `dlsym` lookups of `destroy_c`, and
the `create_c` / `config_create_c` factories (whose result may be null,
modelled by `Option`). -/
structure LoadEnv where
  env : Option String
  fileExists : String → Bool
  dlopenOk : String → Bool
  hasDestroySym : String → Bool
  create : String → Option LibInterface
  configCreate : String → Option LibInterface

/-- The open-and-construct phase of `loadLibrary` (LibManager.cpp:218-240):
`intern_loadLib`, the mandatory `destroy_c` lookup, and the invocation of
`create_c` (no config) or `config_create_c` (with config); `none` exactly
when the C++ `interface` pointer stays `NULL`. -/
def loadedInterface (er : LoadEnv) (filepath : String) (hasConfig : Bool) :
    Option LibInterface :=
  if er.dlopenOk filepath then
    if er.hasDestroySym filepath then
      if hasConfig then er.configCreate filepath else er.create filepath
    else none
  else none

/-- `LibManager::loadLibrary` (LibManager.cpp:162-252): resolve the path,
open the image, resolve `destroy_c` and the configuration-dependent
factory, construct the instance, and register it.  Note the source's
final `return LIBMGR_NO_ERROR;` is executed on *both* sides of the
registration-failure check. -/
def loadLibrary (er : LoadEnv) (s : State) (libPath : String)
    (hasConfig : Bool) : ErrorNumber × State × List Event :=
  match loadedInterface er (resolvePath er.fileExists er.env libPath) hasConfig with
  | none => (ErrorNumber.LIBMGR_ERR_NOT_ABLE_TO_LOAD, s, [])
  | some i =>
    let r := addLibrary s (some i) true libPath
    if r.1 = ErrorNumber.LIBMGR_NO_ERROR then
      (ErrorNumber.LIBMGR_NO_ERROR, r.2.1, r.2.2)
    else
      (ErrorNumber.LIBMGR_NO_ERROR, r.2.1, r.2.2 ++ [Event.destroyed i.name])

/-- `fgets(buf, n, f)` on in-memory content: read at most `n` characters
(the accumulator), stopping after a newline. -/
def fgetsGo : Nat → List Char → List Char → List Char × List Char
  | 0, cs, acc => (acc.reverse, cs)
  | _ + 1, [], acc => (acc.reverse, [])
  | n + 1, c :: rest, acc =>
    if c = '\n' then ((c :: acc).reverse, rest)
    else fgetsGo n rest (c :: acc)

/-- `fgets(plugin_chars, maxChars, plugin_config)`: `none` at end of
file, otherwise up to `maxChars - 1` characters, stopping after a
newline. -/
def fgetsChunk (maxChars : Nat) : List Char → Option (List Char × List Char)
  | [] => none
  | c :: rest => some (fgetsGo (maxChars - 1) (c :: rest) [])

/-- The `while(fgets(...))` loop of `loadConfigFile`, fuelled: the
sequence of buffer fills read from the file. -/
def configChunksGo : Nat → List Char → List (List Char)
  | 0, _ => []
  | fuel + 1, content =>
    match fgetsChunk 255 content with
    | none => []
    | some (chunk, rest) => chunk :: configChunksGo fuel rest

/-- All buffer fills of `loadConfigFile`'s read loop.  Every non-empty
read consumes at least one character, so `content.length + 1` fuel
always suffices. -/
def configChunks (content : List Char) : List (List Char) :=
  configChunksGo (content.length + 1) content

/-- The character class of `find_first_not_of(" \t\n\r")` in
`loadConfigFile`. -/
def isWs (c : Char) : Bool :=
  c = ' ' || c = '\t' || c = '\n' || c = '\r'

/-- The whitespace strip of `loadConfigFile` (LibManager.cpp:342-347):
`substr(pos1, pos2 - pos1 + 1)` with `pos1`/`pos2` the first/last
non-whitespace positions; `[]` when the line is all whitespace. -/
def trimWs (l : List Char) : List Char :=
  ((l.dropWhile isWs).reverse.dropWhile isWs).reverse

/-- What one buffer fill contributes: the trimmed content as a load
target, unless blank or starting with `'#'` (LibManager.cpp:344-351). -/
def lineToLoad (chunk : List Char) : Option String :=
  match trimWs chunk with
  | [] => none
  | c :: cs => if c = '#' then none else some (String.mk (c :: cs))

/-- `LibManager::loadConfigFile` (LibManager.cpp:324-354), projected to
the sequence of strings passed to `loadLibrary`, in order. -/
def loadConfigFile (content : List Char) : List String :=
  (configChunks content).filterMap lineToLoad

/-- One public registry operation, for reasoning about reachable
states. -/
inductive Op where
  | add (lib : Option LibInterface) (hasDestroy : Bool) (path : String)
  | load (er : LoadEnv) (libPath : String) (hasConfig : Bool)
  | acquire (n : String)
  | release (n : String)
  | unload (n : String)
  | getAll
  | clear

/-- The state transition of one public operation (results and events
projected away; the C++ `throw` is `Except.error`). -/
def stepOp (s : State) : Op → Except String State
  | Op.add lib hd path => Except.ok (addLibrary s lib hd path).2.1
  | Op.load er lp hc => Except.ok (loadLibrary er s lp hc).2.1
  | Op.acquire n => Except.ok (acquireLibrary s n).2
  | Op.release n => (releaseLibrary s n).map (fun r => r.2.1)
  | Op.unload n => (unloadLibrary s n).map (fun r => r.2.1)
  | Op.getAll => Except.ok (getAllLibraries s).2
  | Op.clear => Except.ok (clearLibraries s).2

/-- Run a sequence of public operations from a starting state. -/
def runOps : List Op → State → Except String State
  | [], s => Except.ok s
  | op :: ops, s =>
    match stepOp s op with
    | Except.error e => Except.error e
    | Except.ok s2 => runOps ops s2

/-- `refCount(n)`: the stored `useCount`, `none` when unregistered. -/
def refCountOf (s : State) (n : String) : Option Int :=
  (findLib s n).map (fun v => v.useCount)

/-- Well-formedness of the embedded `std::map`: strictly increasing
keys. -/
def SortedMap (s : State) : Prop :=
  s.Pairwise (fun p q => p.1 < q.1)

/-- Every stored record has `useCount ≥ 1`. -/
def AllPositive (s : State) : Prop :=
  ∀ p ∈ s, 1 ≤ p.2.useCount

/-- Combined well-formedness of the registry map: sorted keys (hence
unique) and strictly positive reference counts. -/
def RegInv (s : State) : Prop :=
  SortedMap s ∧ AllPositive s

theorem sortedMap_cons {k : String} {w : libStruct} {tl : List (String × libStruct)} :
    SortedMap ((k, w) :: tl) ↔ (∀ q ∈ tl, k < q.1) ∧ SortedMap tl := by
  rw [SortedMap, List.pairwise_cons]
  exact Iff.rfl

theorem findLib_mem {s : State} {n : String} {v : libStruct}
    (h : findLib s n = some v) : (n, v) ∈ s := by
  induction s with
  | nil =>
    unfold findLib at h
    exact Option.noConfusion h
  | cons hd tl ih =>
    obtain ⟨k, w⟩ := hd
    unfold findLib at h
    by_cases h1 : k = n
    · rw [if_pos h1] at h
      obtain rfl : w = v := Option.some.inj h
      rw [h1]
      exact List.mem_cons_self _ _
    · rw [if_neg h1] at h
      exact List.mem_cons_of_mem _ (ih h)

theorem findLib_eq_none {s : State} {n : String}
    (h : ∀ p ∈ s, p.1 ≠ n) : findLib s n = none := by
  induction s with
  | nil => rfl
  | cons hd tl ih =>
    obtain ⟨k, w⟩ := hd
    have hk : k ≠ n := h (k, w) (List.mem_cons_self _ _)
    unfold findLib
    rw [if_neg hk]
    exact ih (fun p hp => h p (List.mem_cons_of_mem _ hp))

theorem mem_mapInsert {s : State} {n : String} {v : libStruct} {p : String × libStruct}
    (h : p ∈ mapInsert s n v) : p = (n, v) ∨ p ∈ s := by
  induction s with
  | nil =>
    unfold mapInsert at h
    rcases List.mem_cons.mp h with h | h
    · exact Or.inl h
    · exact absurd h (List.not_mem_nil p)
  | cons hd tl ih =>
    obtain ⟨k, w⟩ := hd
    unfold mapInsert at h
    by_cases h1 : n < k
    · rw [if_pos h1] at h
      rcases List.mem_cons.mp h with h | h
      · exact Or.inl h
      · exact Or.inr h
    · rw [if_neg h1] at h
      by_cases h2 : n = k
      · rw [if_pos h2] at h
        rcases List.mem_cons.mp h with h | h
        · exact Or.inl h
        · exact Or.inr (List.mem_cons_of_mem _ h)
      · rw [if_neg h2] at h
        rcases List.mem_cons.mp h with h | h
        · exact Or.inr (h ▸ List.mem_cons_self _ _)
        · rcases ih h with h3 | h3
          · exact Or.inl h3
          · exact Or.inr (List.mem_cons_of_mem _ h3)

theorem sortedMap_mapInsert {s : State} {n : String} {v : libStruct}
    (h : SortedMap s) : SortedMap (mapInsert s n v) := by
  induction s with
  | nil =>
    unfold mapInsert
    rw [SortedMap]
    exact List.pairwise_singleton _ _
  | cons hd tl ih =>
    obtain ⟨k, w⟩ := hd
    obtain ⟨hk, htl⟩ := sortedMap_cons.mp h
    unfold mapInsert
    by_cases h1 : n < k
    · rw [if_pos h1]
      refine sortedMap_cons.mpr ⟨?_, h⟩
      intro q hq
      rcases List.mem_cons.mp hq with h2 | h2
      · rw [h2]
        exact h1
      · exact lt_trans h1 (hk q h2)
    · rw [if_neg h1]
      by_cases h2 : n = k
      · rw [if_pos h2]
        refine sortedMap_cons.mpr ⟨?_, htl⟩
        intro q hq
        rw [h2]
        exact hk q hq
      · rw [if_neg h2]
        refine sortedMap_cons.mpr ⟨?_, ih htl⟩
        intro q hq
        rcases mem_mapInsert hq with h3 | h3
        · rw [h3]
          rcases lt_trichotomy n k with h4 | h4 | h4
          · exact absurd h4 h1
          · exact absurd h4 h2
          · exact h4
        · exact hk q h3

theorem mem_mapErase {s : State} {n : String} {p : String × libStruct}
    (h : p ∈ mapErase s n) : p ∈ s := by
  induction s with
  | nil =>
    unfold mapErase at h
    exact absurd h (List.not_mem_nil p)
  | cons hd tl ih =>
    obtain ⟨k, w⟩ := hd
    unfold mapErase at h
    by_cases h1 : k = n
    · rw [if_pos h1] at h
      exact List.mem_cons_of_mem _ h
    · rw [if_neg h1] at h
      rcases List.mem_cons.mp h with h2 | h2
      · rw [h2]
        exact List.mem_cons_self _ _
      · exact List.mem_cons_of_mem _ (ih h2)

theorem sortedMap_mapErase {s : State} {n : String}
    (h : SortedMap s) : SortedMap (mapErase s n) := by
  induction s with
  | nil =>
    unfold mapErase
    exact h
  | cons hd tl ih =>
    obtain ⟨k, w⟩ := hd
    obtain ⟨hk, htl⟩ := sortedMap_cons.mp h
    unfold mapErase
    by_cases h1 : k = n
    · rw [if_pos h1]
      exact htl
    · rw [if_neg h1]
      exact sortedMap_cons.mpr ⟨fun q hq => hk q (mem_mapErase hq), ih htl⟩

theorem mem_mapErase_sorted {s : State} {n : String} {p : String × libStruct}
    (hs : SortedMap s) (h : p ∈ mapErase s n) : p ∈ s ∧ p.1 ≠ n := by
  induction s with
  | nil =>
    unfold mapErase at h
    exact absurd h (List.not_mem_nil p)
  | cons hd tl ih =>
    obtain ⟨k, w⟩ := hd
    obtain ⟨hk, htl⟩ := sortedMap_cons.mp hs
    unfold mapErase at h
    by_cases h1 : k = n
    · rw [if_pos h1] at h
      refine ⟨List.mem_cons_of_mem _ h, ?_⟩
      rw [← h1]
      exact ne_of_gt (hk p h)
    · rw [if_neg h1] at h
      rcases List.mem_cons.mp h with h2 | h2
      · constructor
        · rw [h2]
          exact List.mem_cons_self _ _
        · rw [h2]
          exact h1
      · obtain ⟨h3, h4⟩ := ih htl h2
        exact ⟨List.mem_cons_of_mem _ h3, h4⟩

theorem findLib_mapInsert_self (s : State) (n : String) (v : libStruct) :
    findLib (mapInsert s n v) n = some v := by
  induction s with
  | nil =>
    unfold mapInsert findLib
    rw [if_pos rfl]
  | cons hd tl ih =>
    obtain ⟨k, w⟩ := hd
    unfold mapInsert
    by_cases h1 : n < k
    · rw [if_pos h1]
      unfold findLib
      rw [if_pos rfl]
    · rw [if_neg h1]
      by_cases h2 : n = k
      · rw [if_pos h2]
        unfold findLib
        rw [if_pos rfl]
      · rw [if_neg h2]
        unfold findLib
        rw [if_neg (fun h4 => h2 h4.symm)]
        exact ih

theorem findLib_mapErase_self {s : State} {n : String}
    (hs : SortedMap s) : findLib (mapErase s n) n = none := by
  induction s with
  | nil => rfl
  | cons hd tl ih =>
    obtain ⟨k, w⟩ := hd
    obtain ⟨hk, htl⟩ := sortedMap_cons.mp hs
    unfold mapErase
    by_cases h1 : k = n
    · rw [if_pos h1]
      refine findLib_eq_none (fun q hq => ?_)
      rw [← h1]
      exact ne_of_gt (hk q hq)
    · rw [if_neg h1]
      unfold findLib
      rw [if_neg h1]
      exact ih htl

theorem mapInsert_findLib_eq {s : State} {n : String} {v : libStruct}
    (hs : SortedMap s) (h : findLib s n = some v) : mapInsert s n v = s := by
  induction s with
  | nil =>
    unfold findLib at h
    exact Option.noConfusion h
  | cons hd tl ih =>
    obtain ⟨k, w⟩ := hd
    obtain ⟨hk, htl⟩ := sortedMap_cons.mp hs
    unfold findLib at h
    by_cases h1 : k = n
    · rw [if_pos h1] at h
      obtain rfl : w = v := Option.some.inj h
      unfold mapInsert
      have h2 : ¬ n < k := by
        rw [h1]
        exact lt_irrefl n
      rw [if_neg h2, if_pos h1.symm, h1]
    · rw [if_neg h1] at h
      have h2 : ¬ n < k := by
        intro h3
        have h4 : findLib tl n = none :=
          findLib_eq_none (fun q hq => ne_of_gt (lt_trans h3 (hk q hq)))
        rw [h4] at h
        exact Option.noConfusion h
      unfold mapInsert
      rw [if_neg h2, if_neg (fun h4 => h1 h4.symm), ih htl h]

theorem mapInsert_cons_lt {k : String} {w : libStruct} {tl : List (String × libStruct)}
    {n : String} {v : libStruct} (h1 : n < k) :
    mapInsert ((k, w) :: tl) n v = (n, v) :: (k, w) :: tl := by
  simp only [mapInsert]
  rw [if_pos h1]

theorem mapInsert_cons_eq {k : String} {w : libStruct} {tl : List (String × libStruct)}
    {n : String} {v : libStruct} (h2 : n = k) :
    mapInsert ((k, w) :: tl) n v = (n, v) :: tl := by
  simp only [mapInsert]
  rw [if_neg (h2 ▸ lt_irrefl n), if_pos h2]

theorem mapInsert_cons_gt {k : String} {w : libStruct} {tl : List (String × libStruct)}
    {n : String} {v : libStruct} (h1 : ¬ n < k) (h2 : ¬ n = k) :
    mapInsert ((k, w) :: tl) n v = (k, w) :: mapInsert tl n v := by
  simp only [mapInsert]
  rw [if_neg h1, if_neg h2]

theorem mapInsert_mapInsert (s : State) (n : String) (a b : libStruct) :
    mapInsert (mapInsert s n a) n b = mapInsert s n b := by
  induction s with
  | nil =>
    show mapInsert [(n, a)] n b = [(n, b)]
    exact mapInsert_cons_eq rfl
  | cons hd tl ih =>
    obtain ⟨k, w⟩ := hd
    by_cases h1 : n < k
    · rw [mapInsert_cons_lt h1, mapInsert_cons_lt h1, mapInsert_cons_eq rfl]
    · by_cases h2 : n = k
      · rw [mapInsert_cons_eq h2, mapInsert_cons_eq h2, mapInsert_cons_eq rfl]
      · rw [mapInsert_cons_gt h1 h2, mapInsert_cons_gt h1 h2,
          mapInsert_cons_gt h1 h2, ih]

theorem mapErase_cons_eq {k : String} {w : libStruct} {tl : List (String × libStruct)}
    {n : String} (h : k = n) : mapErase ((k, w) :: tl) n = tl := by
  simp only [mapErase]
  rw [if_pos h]

theorem mapErase_cons_ne {k : String} {w : libStruct} {tl : List (String × libStruct)}
    {n : String} (h : ¬ k = n) : mapErase ((k, w) :: tl) n = (k, w) :: mapErase tl n := by
  simp only [mapErase]
  rw [if_neg h]

theorem mapErase_mapInsert {s : State} {n : String} {v w : libStruct}
    (hs : SortedMap s) (h : findLib s n = some v) :
    mapErase (mapInsert s n w) n = mapErase s n := by
  induction s with
  | nil =>
    unfold findLib at h
    exact Option.noConfusion h
  | cons hd tl ih =>
    obtain ⟨k, u⟩ := hd
    obtain ⟨hk, htl⟩ := sortedMap_cons.mp hs
    unfold findLib at h
    by_cases h1 : k = n
    · rw [if_pos h1] at h
      rw [mapInsert_cons_eq h1.symm, mapErase_cons_eq rfl, mapErase_cons_eq h1]
    · rw [if_neg h1] at h
      have h2 : ¬ n < k := by
        intro h3
        have h4 : findLib tl n = none :=
          findLib_eq_none (fun q hq => ne_of_gt (lt_trans h3 (hk q hq)))
        rw [h4] at h
        exact Option.noConfusion h
      rw [mapInsert_cons_gt h2 (fun h4 => h1 h4.symm), mapErase_cons_ne h1,
        mapErase_cons_ne h1, ih htl h]

theorem acquireLibrary_state_not_found {s : State} {n : String}
    (hf : findLib s n = none) : (acquireLibrary s n).2 = s := by
  simp only [acquireLibrary, hf]

theorem acquireLibrary_state_found {s : State} {n : String} {v : libStruct}
    (hf : findLib s n = some v) :
    (acquireLibrary s n).2 = mapInsert s n { v with useCount := v.useCount + 1 } := by
  simp only [acquireLibrary, hf]

theorem releaseLibrary_not_found {s : State} {n : String}
    (hf : findLib s n = none) :
    releaseLibrary s n = Except.ok (ErrorNumber.LIBMGR_ERR_NO_LIBRARY, s, []) := by
  simp only [releaseLibrary, hf]

theorem releaseLibrary_drop_to_zero {s : State} {n : String} {v : libStruct}
    (hs : SortedMap s) (hf : findLib s n = some v) (h1 : v.useCount = 1) :
    releaseLibrary s n = Except.ok (ErrorNumber.LIBMGR_NO_ERROR, mapErase s n,
      if v.hasDestroy then [Event.destroyed n] else []) := by
  simp only [releaseLibrary, hf]
  have h2 : ¬ (v.useCount - 1 < 0) := by omega
  have h3 : v.useCount - 1 = 0 := by omega
  rw [if_neg h2, if_pos h3]
  have hf1 := findLib_mapInsert_self s n { v with useCount := v.useCount - 1 }
  simp only [unloadLibrary, hf1]
  rw [if_neg h2, if_pos h3, mapErase_mapInsert hs hf]

theorem releaseLibrary_decrement {s : State} {n : String} {v : libStruct}
    (hf : findLib s n = some v) (h2 : 2 ≤ v.useCount) :
    releaseLibrary s n = Except.ok (ErrorNumber.LIBMGR_NO_ERROR,
      mapInsert s n { v with useCount := v.useCount - 1 }, []) := by
  simp only [releaseLibrary, hf]
  rw [if_neg (by omega : ¬ (v.useCount - 1 < 0)),
    if_neg (by omega : ¬ (v.useCount - 1 = 0))]

theorem unloadLibrary_not_found {s : State} {n : String}
    (hf : findLib s n = none) :
    unloadLibrary s n = Except.ok (ErrorNumber.LIBMGR_ERR_NO_LIBRARY, s, []) := by
  simp only [unloadLibrary, hf]

theorem unloadLibrary_in_use {s : State} {n : String} {v : libStruct}
    (hf : findLib s n = some v) (hpos : 1 ≤ v.useCount) :
    unloadLibrary s n = Except.ok (ErrorNumber.LIBMGR_ERR_LIB_IN_USE, s, []) := by
  simp only [unloadLibrary, hf]
  rw [if_neg (by omega : ¬ v.useCount < 0), if_neg (by omega : ¬ v.useCount = 0)]

theorem addLibrary_inv {s : State} {lib : Option LibInterface} {hd : Bool}
    {path : String} (hinv : RegInv s) : RegInv (addLibrary s lib hd path).2.1 := by
  obtain ⟨hs, hpos⟩ := hinv
  cases lib with
  | none => exact ⟨hs, hpos⟩
  | some l =>
    cases hf : findLib s l.name with
    | some v =>
      simp only [addLibrary, hf]
      exact ⟨hs, hpos⟩
    | none =>
      simp only [addLibrary, hf]
      refine ⟨sortedMap_mapInsert hs, ?_⟩
      intro p hp
      rcases mem_mapInsert hp with h | h
      · rw [h]
      · exact hpos p h

theorem loadLibrary_inv {er : LoadEnv} {s : State} {lp : String} {hc : Bool}
    (hinv : RegInv s) : RegInv (loadLibrary er s lp hc).2.1 := by
  cases hitf : loadedInterface er (resolvePath er.fileExists er.env lp) hc with
  | none =>
    simp only [loadLibrary, hitf]
    exact hinv
  | some i =>
    simp only [loadLibrary, hitf]
    by_cases hr : (addLibrary s (some i) true lp).1 = ErrorNumber.LIBMGR_NO_ERROR
    · rw [if_pos hr]
      exact addLibrary_inv hinv
    · rw [if_neg hr]
      exact addLibrary_inv hinv

theorem getAllLibraries_inv {s : State} (hinv : RegInv s) :
    RegInv (getAllLibraries s).2 := by
  obtain ⟨hs, hpos⟩ := hinv
  constructor
  · rw [SortedMap] at hs ⊢
    unfold getAllLibraries
    rw [List.pairwise_map]
    exact hs
  · intro p hp
    unfold getAllLibraries at hp
    rcases List.mem_map.mp hp with ⟨q, hq, hfq⟩
    rw [← hfq]
    have hq1 := hpos q hq
    show 1 ≤ q.2.useCount + 1
    omega

theorem clearLibraries_of_allPositive {s : State} (hpos : AllPositive s) :
    clearLibraries s = ([], s) := by
  have hfind : s.find? (fun p => p.2.useCount == 0) = none := by
    apply List.find?_eq_none.mpr
    intro p hp
    have h1 := hpos p hp
    simp only [beq_iff_eq]
    omega
  simp only [clearLibraries, clearLibrariesGo, hfind]

theorem stepOp_inv {s s2 : State} {op : Op} (hinv : RegInv s)
    (h : stepOp s op = Except.ok s2) : RegInv s2 := by
  obtain ⟨hs, hpos⟩ := hinv
  cases op with
  | add lib hd path =>
    obtain rfl := Except.ok.inj h
    exact addLibrary_inv ⟨hs, hpos⟩
  | load er lp hc =>
    obtain rfl := Except.ok.inj h
    exact loadLibrary_inv ⟨hs, hpos⟩
  | acquire n =>
    obtain rfl := Except.ok.inj h
    cases hf : findLib s n with
    | none =>
      rw [acquireLibrary_state_not_found hf]
      exact ⟨hs, hpos⟩
    | some v =>
      rw [acquireLibrary_state_found hf]
      refine ⟨sortedMap_mapInsert hs, ?_⟩
      intro p hp
      rcases mem_mapInsert hp with h1 | h1
      · have hv : (1 : Int) ≤ v.useCount := hpos (n, v) (findLib_mem hf)
        rw [h1]
        show 1 ≤ v.useCount + 1
        omega
      · exact hpos p h1
  | release n =>
    simp only [stepOp] at h
    cases hf : findLib s n with
    | none =>
      rw [releaseLibrary_not_found hf] at h
      simp only [Except.map] at h
      obtain rfl := Except.ok.inj h
      exact ⟨hs, hpos⟩
    | some v =>
      have hv : (1 : Int) ≤ v.useCount := hpos (n, v) (findLib_mem hf)
      by_cases h1 : v.useCount = 1
      · rw [releaseLibrary_drop_to_zero hs hf h1] at h
        simp only [Except.map] at h
        obtain rfl := Except.ok.inj h
        exact ⟨sortedMap_mapErase hs, fun p hp => hpos p (mem_mapErase hp)⟩
      · have h2 : (2 : Int) ≤ v.useCount := by omega
        rw [releaseLibrary_decrement hf h2] at h
        simp only [Except.map] at h
        obtain rfl := Except.ok.inj h
        refine ⟨sortedMap_mapInsert hs, ?_⟩
        intro p hp
        rcases mem_mapInsert hp with h3 | h3
        · rw [h3]
          show 1 ≤ v.useCount - 1
          omega
        · exact hpos p h3
  | unload n =>
    simp only [stepOp] at h
    cases hf : findLib s n with
    | none =>
      rw [unloadLibrary_not_found hf] at h
      simp only [Except.map] at h
      obtain rfl := Except.ok.inj h
      exact ⟨hs, hpos⟩
    | some v =>
      have hv : (1 : Int) ≤ v.useCount := hpos (n, v) (findLib_mem hf)
      rw [unloadLibrary_in_use hf hv] at h
      simp only [Except.map] at h
      obtain rfl := Except.ok.inj h
      exact ⟨hs, hpos⟩
  | getAll =>
    obtain rfl := Except.ok.inj h
    exact getAllLibraries_inv ⟨hs, hpos⟩
  | clear =>
    obtain rfl := Except.ok.inj h
    rw [clearLibraries_of_allPositive hpos]
    exact ⟨hs, hpos⟩

theorem runOps_inv {ops : List Op} {s0 s : State} (hinv : RegInv s0)
    (h : runOps ops s0 = Except.ok s) : RegInv s := by
  induction ops generalizing s0 with
  | nil =>
    obtain rfl := Except.ok.inj h
    exact hinv
  | cons op ops ih =>
    simp only [runOps] at h
    cases hstep : stepOp s0 op with
    | error e =>
      rw [hstep] at h
      exact Except.noConfusion h
    | ok s1 =>
      rw [hstep] at h
      exact ih (stepOp_inv hinv hstep) h

theorem regInv_nil : RegInv [] :=
  ⟨List.Pairwise.nil, fun p hp => absurd hp (List.not_mem_nil p)⟩

theorem fgetsGo_length_le (n : Nat) : ∀ (cs acc : List Char),
    (fgetsGo n cs acc).2.length ≤ cs.length := by
  induction n with
  | zero =>
    intro cs acc
    exact le_refl _
  | succ m ih =>
    intro cs acc
    cases cs with
    | nil =>
      show ([] : List Char).length ≤ ([] : List Char).length
      exact le_refl _
    | cons c rest =>
      unfold fgetsGo
      by_cases h : c = '\n'
      · rw [if_pos h]
        show rest.length ≤ rest.length + 1
        omega
      · rw [if_neg h]
        have h1 := ih rest (c :: acc)
        show (fgetsGo m rest (c :: acc)).2.length ≤ rest.length + 1
        omega

theorem fgetsGo_cons_lt (n : Nat) (c : Char) (cs acc : List Char) :
    (fgetsGo (n + 1) (c :: cs) acc).2.length < (c :: cs).length := by
  unfold fgetsGo
  by_cases h : c = '\n'
  · rw [if_pos h]
    show cs.length < cs.length + 1
    omega
  · rw [if_neg h]
    have h1 := fgetsGo_length_le n cs (c :: acc)
    show (fgetsGo n cs (c :: acc)).2.length < cs.length + 1
    omega

theorem fgetsChunk_consumes {content chunk rest : List Char}
    (h : fgetsChunk 255 content = some (chunk, rest)) :
    rest.length < content.length := by
  cases content with
  | nil => exact Option.noConfusion h
  | cons c cs =>
    unfold fgetsChunk at h
    have h2 : (fgetsGo (255 - 1) (c :: cs) []).2 = rest := by
      rw [Option.some.inj h]
    rw [show (255 : Nat) - 1 = 253 + 1 from rfl] at h2
    have h3 := fgetsGo_cons_lt 253 c cs []
    rw [h2] at h3
    exact h3

theorem configChunksGo_fuel (f1 : Nat) : ∀ (f2 : Nat) (content : List Char),
    content.length < f1 → content.length < f2 →
    configChunksGo f1 content = configChunksGo f2 content := by
  induction f1 with
  | zero =>
    intro f2 content h1 h2
    omega
  | succ a ih =>
    intro f2 content h1 h2
    cases f2 with
    | zero => omega
    | succ b =>
      cases hc : fgetsChunk 255 content with
      | none => simp only [configChunksGo, hc]
      | some pr =>
        obtain ⟨chunk, rest⟩ := pr
        have hlt := fgetsChunk_consumes hc
        simp only [configChunksGo, hc]
        rw [ih b rest (by omega) (by omega)]

theorem configChunksGo_eq_configChunks {fuel : Nat} {content : List Char}
    (h : content.length < fuel) :
    configChunksGo fuel content = configChunks content :=
  configChunksGo_fuel fuel (content.length + 1) content h (Nat.lt_succ_self _)

theorem fgetsGo_newline : ∀ (l : List Char) (n : Nat) (acc rest : List Char),
    '\n' ∉ l → l.length < n →
    fgetsGo n (l ++ '\n' :: rest) acc = (acc.reverse ++ l ++ ['\n'], rest) := by
  intro l
  induction l with
  | nil =>
    intro n acc rest hnl hlen
    cases n with
    | zero => omega
    | succ m =>
      show fgetsGo (m + 1) ('\n' :: rest) acc = (acc.reverse ++ [] ++ ['\n'], rest)
      unfold fgetsGo
      rw [if_pos rfl]
      simp
  | cons c l2 ih =>
    intro n acc rest hnl hlen
    cases n with
    | zero =>
      simp only [List.length_cons] at hlen
      omega
    | succ m =>
      have hc : ¬ c = '\n' := fun h => hnl (by rw [h]; exact List.mem_cons_self _ _)
      show fgetsGo (m + 1) (c :: (l2 ++ '\n' :: rest)) acc = _
      unfold fgetsGo
      rw [if_neg hc]
      rw [ih m (c :: acc) rest (fun h => hnl (List.mem_cons_of_mem _ h))
        (by simp only [List.length_cons] at hlen; omega)]
      simp

theorem fgetsChunk_line {l rest : List Char}
    (hnl : '\n' ∉ l) (hlen : l.length ≤ 253) :
    fgetsChunk 255 (l ++ '\n' :: rest) = some (l ++ ['\n'], rest) := by
  have h1 := fgetsGo_newline l (255 - 1) [] rest hnl (by omega)
  cases l with
  | nil => exact congrArg some h1
  | cons c l2 => exact congrArg some h1

theorem configChunks_line {l rest : List Char}
    (hnl : '\n' ∉ l) (hlen : l.length ≤ 253) :
    configChunks (l ++ '\n' :: rest) = (l ++ ['\n']) :: configChunks rest := by
  have hch := @fgetsChunk_line l rest hnl hlen
  have hlt : rest.length < (l ++ '\n' :: rest).length := by
    rw [List.length_append, List.length_cons]
    omega
  show configChunksGo ((l ++ '\n' :: rest).length + 1) (l ++ '\n' :: rest) = _
  simp only [configChunksGo, hch]
  rw [configChunksGo_eq_configChunks hlt]

/-- Claim C1: the spec says that when `loadLibrary` creates an instance but
registering it fails (e.g. name conflict), the destructor is invoked on the
fresh instance and the registration error is returned.  The code does invoke
the destructor, but then executes `return LIBMGR_NO_ERROR;`, discarding the
captured `error`: at a concrete failing input (a module named `"A"` already
registered, the loader creating another instance named `"A"`), registration
fails with `LIBMGR_ERR_LIBNAME_EXISTS`, the destroy callback fires, and
`loadLibrary` nevertheless reports `LIBMGR_NO_ERROR`. -/
theorem C1_load_register_failure_returns_no_error :
    (addLibrary
      [("A", { libInterface := ⟨"A"⟩, hasDestroy := true, useCount := 1, path := "" })]
      (some ⟨"A"⟩) true "A").1 = ErrorNumber.LIBMGR_ERR_LIBNAME_EXISTS ∧
    loadLibrary
      { env := none, fileExists := fun _ => false, dlopenOk := fun _ => true,
        hasDestroySym := fun _ => true, create := fun _ => some ⟨"A"⟩,
        configCreate := fun _ => none }
      [("A", { libInterface := ⟨"A"⟩, hasDestroy := true, useCount := 1, path := "" })]
      "A" false
    = (ErrorNumber.LIBMGR_NO_ERROR,
       [("A", { libInterface := ⟨"A"⟩, hasDestroy := true, useCount := 1, path := "" })],
       [Event.destroyed "A"]) :=
  ⟨rfl, rfl⟩

/-- Claim C2: registering a second module whose self-reported name equals an
existing record's name returns `LIBMGR_ERR_LIBNAME_EXISTS`
(`NameConflict`), inserts nothing, and leaves the registry — including the
first record and its reference count — exactly as it was. -/
theorem C2_register_name_conflict (s : State) (n : String) (v : libStruct)
    (l2 : LibInterface) (hf : findLib s n = some v) (hname : l2.name = n)
    (hd : Bool) (path : String) :
    addLibrary s (some l2) hd path
      = (ErrorNumber.LIBMGR_ERR_LIBNAME_EXISTS, s, []) := by
  simp only [addLibrary, hname, hf]

/-- Witness for C2 at a concrete registry and module. -/
theorem C2_register_name_conflict_witness :
    addLibrary
      [("A", { libInterface := ⟨"A"⟩, hasDestroy := true, useCount := 1, path := "" })]
      (some ⟨"A"⟩) false "p2"
      = (ErrorNumber.LIBMGR_ERR_LIBNAME_EXISTS,
         [("A", { libInterface := ⟨"A"⟩, hasDestroy := true, useCount := 1, path := "" })],
         []) :=
  C2_register_name_conflict
    [("A", { libInterface := ⟨"A"⟩, hasDestroy := true, useCount := 1, path := "" })]
    "A" { libInterface := ⟨"A"⟩, hasDestroy := true, useCount := 1, path := "" }
    ⟨"A"⟩ rfl rfl false "p2"

/-- Claim C3: on a well-formed registry, `acquireLibrary n` immediately
followed by `releaseLibrary n` restores `refCount(n)` to its prior value;
when `n` is registered (so `useCount ≥ 1` by the invariant), the release
succeeds and the whole registry state is exactly the original — the record
is not removed and no destructor event is emitted. -/
theorem C3_acquire_release_restores (s : State) (n : String)
    (hs : SortedMap s) (hpos : AllPositive s) :
    ∃ r, releaseLibrary (acquireLibrary s n).2 n = Except.ok r ∧
      refCountOf r.2.1 n = refCountOf s n ∧
      (findLib s n ≠ none → r = (ErrorNumber.LIBMGR_NO_ERROR, s, [])) := by
  cases hf : findLib s n with
  | none =>
    rw [acquireLibrary_state_not_found hf]
    refine ⟨(ErrorNumber.LIBMGR_ERR_NO_LIBRARY, s, []),
      releaseLibrary_not_found hf, rfl, ?_⟩
    intro h
    exact absurd rfl h
  | some v =>
    have hv : (1 : Int) ≤ v.useCount := hpos (n, v) (findLib_mem hf)
    rw [acquireLibrary_state_found hf]
    refine ⟨(ErrorNumber.LIBMGR_NO_ERROR, s, []), ?_, rfl, fun _ => rfl⟩
    have hf1 := findLib_mapInsert_self s n { v with useCount := v.useCount + 1 }
    have h2 : ¬ (v.useCount + 1 - 1 < 0) := by omega
    have h3 : ¬ (v.useCount + 1 - 1 = 0) := by omega
    simp only [releaseLibrary, hf1]
    rw [if_neg h2, if_neg h3, mapInsert_mapInsert]
    have e2 : v.useCount + 1 - 1 = v.useCount := by omega
    have e1 : ({ v with useCount := v.useCount + 1 - 1 } : libStruct) = v := by
      rw [e2]
    rw [e1, mapInsert_findLib_eq hs hf]

/-- Witness for C3 at a concrete registry with `useCount = 2`. -/
theorem C3_acquire_release_restores_witness :
    ∃ r, releaseLibrary (acquireLibrary
        [("A", { libInterface := ⟨"A"⟩, hasDestroy := true, useCount := 2, path := "" })]
        "A").2 "A" = Except.ok r ∧
      refCountOf r.2.1 "A"
        = refCountOf
            [("A", { libInterface := ⟨"A"⟩, hasDestroy := true, useCount := 2, path := "" })]
            "A" ∧
      (findLib
          [("A", { libInterface := ⟨"A"⟩, hasDestroy := true, useCount := 2, path := "" })]
          "A" ≠ none →
        r = (ErrorNumber.LIBMGR_NO_ERROR,
          [("A", { libInterface := ⟨"A"⟩, hasDestroy := true, useCount := 2, path := "" })],
          [])) :=
  C3_acquire_release_restores _ "A" (List.pairwise_singleton _ _)
    (fun p hp => by rw [List.mem_singleton.mp hp]; decide)

/-- Claim C4: a `releaseLibrary` that brings `useCount` from 1 to 0 removes
the record and emits exactly one destructor event when a destroy callback
is present (none otherwise); every subsequent `releaseLibrary`,
`acquireLibrary` (which returns `NULL`), or `unloadLibrary` on that name
then reports the not-found error `LIBMGR_ERR_NO_LIBRARY`. -/
theorem C4_release_to_zero_unloads (s : State) (n : String) (v : libStruct)
    (hs : SortedMap s) (hf : findLib s n = some v) (h1 : v.useCount = 1) :
    releaseLibrary s n = Except.ok (ErrorNumber.LIBMGR_NO_ERROR, mapErase s n,
        if v.hasDestroy then [Event.destroyed n] else []) ∧
    findLib (mapErase s n) n = none ∧
    releaseLibrary (mapErase s n) n
      = Except.ok (ErrorNumber.LIBMGR_ERR_NO_LIBRARY, mapErase s n, []) ∧
    acquireLibrary (mapErase s n) n = (none, mapErase s n) ∧
    unloadLibrary (mapErase s n) n
      = Except.ok (ErrorNumber.LIBMGR_ERR_NO_LIBRARY, mapErase s n, []) := by
  have hnone : findLib (mapErase s n) n = none := findLib_mapErase_self hs
  refine ⟨releaseLibrary_drop_to_zero hs hf h1, hnone,
    releaseLibrary_not_found hnone, ?_, unloadLibrary_not_found hnone⟩
  simp only [acquireLibrary, hnone]

/-- Witness for C4 at a concrete one-record registry with `useCount = 1`. -/
theorem C4_release_to_zero_unloads_witness :
    releaseLibrary
      [("A", { libInterface := ⟨"A"⟩, hasDestroy := true, useCount := 1, path := "" })]
      "A"
      = Except.ok (ErrorNumber.LIBMGR_NO_ERROR, [], [Event.destroyed "A"]) := by
  have h := C4_release_to_zero_unloads
    [("A", { libInterface := ⟨"A"⟩, hasDestroy := true, useCount := 1, path := "" })]
    "A" { libInterface := ⟨"A"⟩, hasDestroy := true, useCount := 1, path := "" }
    (List.pairwise_singleton _ _) rfl rfl
  simpa using h.1

/-- Claim C5: in every registry state reachable from the empty registry
through the public operations (`addLibrary`, `loadLibrary`,
`acquireLibrary`, `releaseLibrary`, `unloadLibrary`, `getAllLibraries`,
`clearLibraries`), every stored record has `useCount ≥ 1`: records are
created with `useCount = 1` and removed by the same release that brings
the count to 0, so a zero-count record never persists in the map. -/
theorem C5_useCount_invariant (ops : List Op) (s : State)
    (h : runOps ops [] = Except.ok s) : AllPositive s :=
  (runOps_inv regInv_nil h).2

/-- Witness for C5 on the one-operation run registering a module. -/
theorem C5_useCount_invariant_witness :
    AllPositive
      [("A", { libInterface := ⟨"A"⟩, hasDestroy := true, useCount := 1, path := "p" })] :=
  C5_useCount_invariant [Op.add (some ⟨"A"⟩) true "p"] _ rfl

/-- Claim C6: path resolution in `loadLibrary` is deterministic and
ordered: a name openable as a literal file path is used unchanged; a bare
name is decorated to `lib` + name + `.so` and probed against the colon
separated directories of the search-list environment variable in order
(first hit wins, even when a later directory also has the file — shown on
a three-directory list where the second directory contains the file); with
no hit the decorated name itself is passed through to the loader. -/
theorem C6_path_resolution :
    (∀ (fe : String → Bool) (env : Option String) (p : String),
      fe p = true → resolvePath fe env p = p) ∧
    resolvePath (fun s => s == "/opt/b/libfoo.so")
      (some "/opt/a:/opt/b:/opt/c") "foo" = "/opt/b/libfoo.so" ∧
    resolvePath (fun s => s == "/opt/b/libfoo.so" || s == "/opt/c/libfoo.so")
      (some "/opt/a:/opt/b:/opt/c") "foo" = "/opt/b/libfoo.so" ∧
    resolvePath (fun _ => false) (some "/opt/a:/opt/b:/opt/c") "foo"
      = "libfoo.so" := by
  refine ⟨?_, by decide, by decide, by decide⟩
  intro fe env p h
  unfold resolvePath
  rw [if_pos h]

/-- Witness for C6's literal-path conjunct at a concrete input. -/
theorem C6_path_resolution_witness :
    resolvePath (fun _ => true) none "somelib" = "somelib" :=
  C6_path_resolution.1 (fun _ => true) none "somelib" rfl

/-- Claim C7: registering module `a` and then module `b` (distinct names)
into an empty registry emits no notification at the first registration
(the newly added module is not told about itself, and no peers exist) and
exactly the single notification `newLibLoaded(b)` delivered to `a` at the
second — so `a` hears exactly once about `b`, and `b` receives no
notification at all (in particular none referencing `a`). -/
theorem C7_peer_notifications (a b : String) (hab : a ≠ b) :
    (addLibrary [] (some ⟨a⟩) false "").2.2 = [] ∧
    (addLibrary (addLibrary [] (some ⟨a⟩) false "").2.1 (some ⟨b⟩) false "").2.2
      = [Event.notified a b] := by
  have hba : b ≠ a := fun h => hab h.symm
  have e1 : addLibrary [] (some ⟨a⟩) false ""
      = (ErrorNumber.LIBMGR_NO_ERROR,
         [(a, { libInterface := ⟨a⟩, hasDestroy := false, useCount := 1, path := "" })],
         []) := by
    simp [addLibrary, findLib, mapInsert]
  refine ⟨by rw [e1], ?_⟩
  rw [e1]
  have hfb : findLib
      [(a, { libInterface := ⟨a⟩, hasDestroy := false, useCount := 1, path := "" })] b
      = none := by
    unfold findLib
    rw [if_neg hab]
    rfl
  by_cases h1 : b < a
  · simp only [addLibrary, hfb]
    rw [mapInsert_cons_lt h1]
    simp [hab, hba]
  · simp only [addLibrary, hfb]
    rw [mapInsert_cons_gt h1 hba]
    simp [mapInsert, hab, hba]

/-- Witness for C7 with the modules named `"A"` and `"B"`. -/
theorem C7_peer_notifications_witness :
    (addLibrary [] (some ⟨"A"⟩) false "").2.2 = [] ∧
    (addLibrary (addLibrary [] (some ⟨"A"⟩) false "").2.1 (some ⟨"B"⟩) false "").2.2
      = [Event.notified "A" "B"] :=
  C7_peer_notifications "A" "B" (by decide)

set_option maxRecDepth 8000 in
/-- Claim C8 counterexample: `loadConfigFile` reads through a 255-byte
`fgets` buffer, so a single 300-character line is split into a
254-character chunk and a 46-character chunk and produces **two** load
attempts, not one — refuting the claim that no fixed per-line byte cap is
imposed. -/
theorem C8_line_cap_counterexample :
    loadConfigFile (List.replicate 300 'a' ++ ['\n'])
      = [String.mk (List.replicate 254 'a'), String.mk (List.replicate 46 'a')] ∧
    (loadConfigFile (List.replicate 300 'a' ++ ['\n'])).length = 2 := by
  constructor
  · decide
  · decide

/-- Claim C8 as amended: `loadConfigFile` imposes the 255-byte `fgets`
buffer cap of the legacy parser: a config line of at most 253 characters
before its newline (254 bytes with it) is consumed as one buffer fill and
yields at most one load attempt — exactly one when its trimmed content is
non-blank and not a `#` comment — while a longer line is split across
several buffer fills, each trimmed and loaded as if it were its own line
(so a long line can yield several load attempts, as the counterexample
shows). -/
theorem C8_amended_fgets_chunking (l rest : List Char)
    (hlen : l.length ≤ 253) (hnl : '\n' ∉ l) :
    loadConfigFile (l ++ '\n' :: rest)
      = (lineToLoad (l ++ ['\n'])).toList ++ loadConfigFile rest := by
  unfold loadConfigFile
  rw [configChunks_line hnl hlen, List.filterMap_cons]
  cases lineToLoad (l ++ ['\n']) <;> simp

/-- Witness for the amended C8 on a two-line file. -/
theorem C8_amended_fgets_chunking_witness :
    loadConfigFile (['f', 'o', 'o'] ++ '\n' :: "bar\n".data)
      = (lineToLoad (['f', 'o', 'o'] ++ ['\n'])).toList
        ++ loadConfigFile "bar\n".data :=
  C8_amended_fgets_chunking ['f', 'o', 'o'] "bar\n".data (by decide) (by decide)

/-- Claim C9 counterexample: registering a null instance returns
`LIBMGR_ERR_NO_LIBRARY` — the very same error value produced by
`releaseLibrary`/`unloadLibrary` on an unknown name — so the error kind is
*not* distinct from the not-found kind, refuting the claimed
`InvalidModule`/`NotFound` distinction. -/
theorem C9_error_kind_counterexample :
    (addLibrary ([] : State) none false "").1 = ErrorNumber.LIBMGR_ERR_NO_LIBRARY ∧
    releaseLibrary ([] : State) "missing"
      = Except.ok (ErrorNumber.LIBMGR_ERR_NO_LIBRARY, [], []) ∧
    unloadLibrary ([] : State) "missing"
      = Except.ok (ErrorNumber.LIBMGR_ERR_NO_LIBRARY, [], []) :=
  ⟨rfl, rfl, rfl⟩

/-- Claim C9 as amended: `addLibrary` with an absent (null) instance fails
with `LIBMGR_ERR_NO_LIBRARY` — the same error code used for operations
referencing an unknown module name, not a distinct kind — and leaves the
registry unchanged with no events. -/
theorem C9_amended_null_instance (s : State) (hd : Bool) (path : String) :
    addLibrary s none hd path = (ErrorNumber.LIBMGR_ERR_NO_LIBRARY, s, []) ∧
    ∀ n, findLib s n = none →
      releaseLibrary s n = Except.ok (ErrorNumber.LIBMGR_ERR_NO_LIBRARY, s, []) :=
  ⟨rfl, fun _ hn => releaseLibrary_not_found hn⟩

/-- Witness for the amended C9 on the empty registry. -/
theorem C9_amended_null_instance_witness :
    addLibrary ([] : State) none true "x" = (ErrorNumber.LIBMGR_ERR_NO_LIBRARY, [], []) ∧
    releaseLibrary ([] : State) "y"
      = Except.ok (ErrorNumber.LIBMGR_ERR_NO_LIBRARY, [], []) :=
  ⟨(C9_amended_null_instance [] true "x").1,
   (C9_amended_null_instance [] true "x").2 "y" rfl⟩

/-- Claim C10: `unloadLibrary` on a registered record whose `useCount` is
nonzero (≥ 1, as it is in every reachable state) returns
`LIBMGR_ERR_LIB_IN_USE` and leaves the registry completely unchanged —
the record stays with its count, and no destructor event is emitted. -/
theorem C10_unload_in_use_unchanged (s : State) (n : String) (v : libStruct)
    (hf : findLib s n = some v) (hpos : 1 ≤ v.useCount) :
    unloadLibrary s n = Except.ok (ErrorNumber.LIBMGR_ERR_LIB_IN_USE, s, []) :=
  unloadLibrary_in_use hf hpos

/-- Witness for C10 on a concrete record with `useCount = 3`. -/
theorem C10_unload_in_use_unchanged_witness :
    unloadLibrary
      [("A", { libInterface := ⟨"A"⟩, hasDestroy := true, useCount := 3, path := "" })]
      "A"
      = Except.ok (ErrorNumber.LIBMGR_ERR_LIB_IN_USE,
          [("A", { libInterface := ⟨"A"⟩, hasDestroy := true, useCount := 3, path := "" })],
          []) :=
  C10_unload_in_use_unchanged _ "A" _ rfl (by decide)

end LibMgr
